import Mathlib

/-!
Verification development for the renewable-energy-agent repository.

The definitions below are shallow embeddings of the repository's TypeScript
frontend (components, store, API service) and of its SQL schema
(`backend/database_schema.sql`).  Pure functions of the source become Lean
functions; React state updates become explicit state-passing; fallible
calls become `Option`/`Except`.  The RAG retriever described by the spec is
not implemented anywhere in the repository, so it is modelled from the
spec's words where a claim needs it (clearly marked).
-/

namespace RenewableAgency

/-! ## JavaScript string helpers

`jsTrim` embeds JavaScript's `String.prototype.trim()`: it strips
whitespace characters from both ends of the string. -/

/-- Drop leading and trailing whitespace from a character list. -/
def trimChars (l : List Char) : List Char :=
  ((l.dropWhile Char.isWhitespace).reverse.dropWhile Char.isWhitespace).reverse

/-- Embedding of JavaScript `String.prototype.trim()`. -/
def jsTrim (s : String) : String :=
  String.mk (trimChars s.toList)

theorem dropWhile_of_all_not {p : Char → Bool} :
    ∀ l : List Char, (∀ c ∈ l, p c = false) → l.dropWhile p = l := by
  intro l h
  cases l with
  | nil => rfl
  | cons c rest =>
      have hc : p c = false := h c (List.mem_cons_self c rest)
      simp [List.dropWhile, hc]

theorem trimChars_of_no_whitespace (l : List Char)
    (h : ∀ c ∈ l, c.isWhitespace = false) : trimChars l = l := by
  unfold trimChars
  rw [dropWhile_of_all_not l h]
  rw [dropWhile_of_all_not l.reverse (fun c hc => h c (List.mem_reverse.mp hc))]
  exact List.reverse_reverse l

theorem jsTrim_of_no_whitespace (s : String)
    (h : ∀ c ∈ s.toList, c.isWhitespace = false) : jsTrim s = s := by
  unfold jsTrim
  rw [trimChars_of_no_whitespace s.toList h]
  cases s
  rfl

/-! ## UserRegistration.tsx

Embeds `validateForm` and `handleSubmit` from
`frontend/src/components/UserRegistration.tsx`. -/

/-- `RegistrationRequest` from `frontend/src/types` (part_003). -/
structure RegistrationRequest where
  name : String
  email : String
deriving DecidableEq, Repr

/-- The `errors` object built by `validateForm`: a key is present exactly
when that field failed validation. -/
structure RegistrationErrors where
  name : Option String
  email : Option String
deriving DecidableEq, Repr

/-- A character admissible in the `[^\s@]+` atoms of the email pattern:
not whitespace and not `@`. -/
def isAtomChar (c : Char) : Bool :=
  !c.isWhitespace && c != '@'

/-- True when a character list has a dot somewhere strictly before its
last position. -/
def dotNotLast : List Char → Bool
  | [] => false
  | [_] => false
  | c :: rest => (c == '.') || dotNotLast rest

/-- True when a character list contains a dot at a position that is
neither first nor last. -/
def hasInnerDot (l : List Char) : Bool :=
  match l with
  | [] => false
  | _ :: rest => dotNotLast rest

/-- Embedding of the regular-expression test
`/^[^\s@]+@[^\s@]+\.[^\s@]+$/.test(email)` used by `validateForm`:
the string must consist of a non-empty whitespace-free, `@`-free part,
exactly one `@`, and a non-empty whitespace-free, `@`-free part
containing a dot that is neither its first nor its last character. -/
def matchesEmailPattern (s : String) : Bool :=
  s.toList.count '@' == 1 &&
  s.toList.takeWhile (fun c => c != '@') != [] &&
  (s.toList.takeWhile (fun c => c != '@')).all isAtomChar &&
  ((s.toList.dropWhile (fun c => c != '@')).drop 1).all (fun c => !c.isWhitespace) &&
  hasInnerDot ((s.toList.dropWhile (fun c => c != '@')).drop 1)

/-- The `name` branch of `validateForm`. -/
def nameError (name : String) : Option String :=
  if jsTrim name = "" then some "Name is required"
  else if (jsTrim name).length < 2 then some "Name must be at least 2 characters"
  else none

/-- The `email` branch of `validateForm`.  The required-check uses the
trimmed email; the pattern test runs on the raw email, as in the source. -/
def emailError (email : String) : Option String :=
  if jsTrim email = "" then some "Email is required"
  else if !matchesEmailPattern email then some "Please enter a valid email address"
  else none

/-- `validateForm` from `UserRegistration.tsx`: builds the errors object
and returns `true` exactly when it has no keys. -/
def validateForm (fd : RegistrationRequest) : RegistrationErrors × Bool :=
  let errs : RegistrationErrors := { name := nameError fd.name, email := emailError fd.email }
  (errs, errs.name.isNone && errs.email.isNone)

/-- `handleSubmit` from `UserRegistration.tsx`: calls `onRegister` with
the (untrimmed) form data exactly when `validateForm` returns true;
`some fd` records the single `onRegister` invocation. -/
def registrationHandleSubmit (fd : RegistrationRequest) : Option RegistrationRequest :=
  if (validateForm fd).2 then some fd else none

/-! ## ChatInput.tsx

Embeds `handleSubmit` and `canSend` from
`frontend/src/components/ChatInput.tsx`. -/

/-- `canSend` from `ChatInput.tsx`. -/
def canSend (message : String) (isLoading disabled : Bool) : Bool :=
  decide (0 < (jsTrim message).length) && !isLoading && !disabled

/-- `handleSubmit` from `ChatInput.tsx`.  The result is the optional
`onSendMessage` argument (at most one invocation) paired with the new
input value. -/
def chatInputHandleSubmit (message : String) (isLoading disabled : Bool) :
    Option String × String :=
  if jsTrim message = "" || isLoading || disabled then (none, message)
  else (some (jsTrim message), "")

/-! ## Supporting lemmas for the form components -/

theorem string_ne_empty_iff_length_pos (s : String) : s ≠ "" ↔ 0 < s.length := by
  cases s with
  | mk data =>
      constructor
      · intro h
        have hd : data ≠ [] := by
          intro hnil
          exact h (by simp [hnil])
        simpa [String.length] using List.length_pos.mpr hd
      · intro h heq
        have : data = [] := by simpa using congrArg String.toList heq
        simp [String.length, this] at h

theorem dropWhile_head_not {α : Type} (p : α → Bool) :
    ∀ (l : List α) (c : α) (t : List α), l.dropWhile p = c :: t → p c = false := by
  intro l
  induction l with
  | nil => intro c t h; simp [List.dropWhile] at h
  | cons a rest ih =>
      intro c t h
      by_cases hp : p a = true
      · rw [List.dropWhile_cons_of_pos hp] at h
        exact ih c t h
      · have hp' : p a = false := by simpa using hp
        rw [List.dropWhile_cons_of_neg (by simp [hp'])] at h
        obtain ⟨rfl, _⟩ := List.cons.injEq a rest c t ▸ h
        exact hp'

theorem matchesEmail_no_whitespace (s : String) (h : matchesEmailPattern s = true) :
    ∀ c ∈ s.toList, c.isWhitespace = false := by
  unfold matchesEmailPattern at h
  simp only [Bool.and_eq_true, bne_iff_ne, ne_eq, List.all_eq_true, beq_iff_eq,
    Bool.not_eq_true'] at h
  obtain ⟨⟨⟨⟨hcount, hbne⟩, hball⟩, haall⟩, hdot⟩ := h
  intro c hc
  have hsplit :
      s.toList.takeWhile (fun c => c != '@') ++ s.toList.dropWhile (fun c => c != '@')
        = s.toList := List.takeWhile_append_dropWhile _ _
  rw [← hsplit] at hc
  rcases List.mem_append.mp hc with hmem | hmem
  · have := hball c hmem
    unfold isAtomChar at this
    simp only [Bool.and_eq_true, Bool.not_eq_true'] at this
    exact this.1
  · cases hdrop : s.toList.dropWhile (fun c => c != '@') with
    | nil => rw [hdrop] at hmem; simp at hmem
    | cons c0 t =>
        have hc0 : (c0 != '@') = false := dropWhile_head_not _ _ c0 t hdrop
        have hc0' : c0 = '@' := by simpa using hc0
        rw [hdrop] at hmem
        rcases List.mem_cons.mp hmem with rfl | hmem'
        · rw [hc0']; decide
        · have ht : t = (s.toList.dropWhile (fun c => c != '@')).drop 1 := by
            rw [hdrop]; rfl
          exact haall c (ht ▸ hmem')

theorem matchesEmail_jsTrim (s : String) (h : matchesEmailPattern s = true) :
    jsTrim s = s :=
  jsTrim_of_no_whitespace s (matchesEmail_no_whitespace s h)

theorem matchesEmail_ne_empty (s : String) (h : matchesEmailPattern s = true) :
    s ≠ "" := by
  intro heq
  rw [heq] at h
  exact absurd h (by decide)

theorem nameError_none_iff (name : String) :
    nameError name = none ↔ 2 ≤ (jsTrim name).length := by
  unfold nameError
  constructor
  · intro h
    split_ifs at h with h1 h2
    omega
  · intro h
    have h1 : jsTrim name ≠ "" := by
      rw [string_ne_empty_iff_length_pos]; omega
    rw [if_neg h1, if_neg (by omega)]

theorem emailError_none_iff (email : String) :
    emailError email = none ↔ matchesEmailPattern email = true := by
  unfold emailError
  constructor
  · intro h
    split_ifs at h with h1 h2
    simpa using h2
  · intro h
    have htrim : jsTrim email = email := matchesEmail_jsTrim email h
    rw [htrim, if_neg (matchesEmail_ne_empty email h), h]
    simp

/-- Claim C10: `UserRegistration.validateForm` returns `true` exactly when
the trimmed name has at least 2 characters and the email matches the
pattern `^[^\s@]+@[^\s@]+\.[^\s@]+$`; the errors object records an entry
for exactly the failing fields; and `handleSubmit` invokes `onRegister`
(with the form data) only when `validateForm` returned `true`. -/
theorem userRegistration_validateForm_correct (fd : RegistrationRequest) :
    ((validateForm fd).2 = true ↔
      (2 ≤ (jsTrim fd.name).length ∧ matchesEmailPattern fd.email = true)) ∧
    ((validateForm fd).1.name = none ↔ 2 ≤ (jsTrim fd.name).length) ∧
    ((validateForm fd).1.email = none ↔ matchesEmailPattern fd.email = true) ∧
    (∀ r, registrationHandleSubmit fd = some r →
      (validateForm fd).2 = true ∧ r = fd) := by
  have hval : (validateForm fd).2 = ((nameError fd.name).isNone && (emailError fd.email).isNone) := rfl
  have hn : (validateForm fd).1.name = nameError fd.name := rfl
  have he : (validateForm fd).1.email = emailError fd.email := rfl
  refine ⟨?_, ?_, ?_, ?_⟩
  · rw [hval]
    simp only [Bool.and_eq_true, Option.isNone_iff_eq_none]
    rw [nameError_none_iff, emailError_none_iff]
  · rw [hn]; exact nameError_none_iff fd.name
  · rw [he]; exact emailError_none_iff fd.email
  · intro r hr
    unfold registrationHandleSubmit at hr
    split_ifs at hr with hv
    exact ⟨hv, (Option.some.inj hr).symm⟩

/-- Witness for C10 at a concrete input. -/
theorem userRegistration_validateForm_correct_witness :
    (validateForm { name := "Al", email := "a@b.c" }).2 = true ∧
    registrationHandleSubmit { name := "", email := "x" } = none := by
  constructor
  · exact (userRegistration_validateForm_correct
      { name := "Al", email := "a@b.c" }).1.mpr ⟨by decide, by decide⟩
  · decide

/-- Claim C9: `ChatInput.handleSubmit` invokes `onSendMessage` exactly once
with the trimmed message, and clears the input, precisely when the trimmed
message is non-empty and neither `isLoading` nor `disabled` holds;
otherwise it does nothing and the input is unchanged.  `canSend` is the
same condition. -/
theorem chatInput_handleSubmit_correct (m : String) (l d : Bool) :
    (chatInputHandleSubmit m l d = (some (jsTrim m), "") ↔
      (jsTrim m ≠ "" ∧ l = false ∧ d = false)) ∧
    ((jsTrim m = "" ∨ l = true ∨ d = true) →
      chatInputHandleSubmit m l d = (none, m)) ∧
    (canSend m l d = true ↔ (jsTrim m ≠ "" ∧ l = false ∧ d = false)) := by
  have hlen : (jsTrim m ≠ "") ↔ 0 < (jsTrim m).length :=
    string_ne_empty_iff_length_pos (jsTrim m)
  by_cases hm : jsTrim m = ""
  · have hsub : chatInputHandleSubmit m l d = (none, m) := by
      unfold chatInputHandleSubmit
      rw [if_pos (by simp [hm])]
    refine ⟨?_, fun _ => hsub, ?_⟩
    · rw [hsub]
      constructor
      · intro h; exact absurd (congrArg Prod.fst h) (by simp)
      · rintro ⟨hne, -, -⟩; exact absurd hm hne
    · unfold canSend
      constructor
      · intro h
        simp only [Bool.and_eq_true, decide_eq_true_eq] at h
        exact absurd hm (hlen.mpr h.1.1)
      · rintro ⟨hne, -, -⟩; exact absurd hm hne
  · cases l with
    | true =>
        have hsub : chatInputHandleSubmit m true d = (none, m) := by
          unfold chatInputHandleSubmit
          rw [if_pos (by simp)]
        refine ⟨?_, fun _ => hsub, ?_⟩
        · rw [hsub]
          constructor
          · intro h; exact absurd (congrArg Prod.fst h) (by simp)
          · rintro ⟨-, hl, -⟩; exact Bool.noConfusion hl
        · unfold canSend
          simp
    | false =>
        cases d with
        | true =>
            have hsub : chatInputHandleSubmit m false true = (none, m) := by
              unfold chatInputHandleSubmit
              rw [if_pos (by simp)]
            refine ⟨?_, fun _ => hsub, ?_⟩
            · rw [hsub]
              constructor
              · intro h; exact absurd (congrArg Prod.fst h) (by simp)
              · rintro ⟨-, -, hd⟩; exact Bool.noConfusion hd
            · unfold canSend
              simp
        | false =>
            have hsub : chatInputHandleSubmit m false false = (some (jsTrim m), "") := by
              unfold chatInputHandleSubmit
              rw [if_neg (by simp [hm])]
            refine ⟨⟨fun _ => ⟨hm, rfl, rfl⟩, fun _ => hsub⟩, ?_, ?_⟩
            · rintro (h | h | h)
              · exact absurd h hm
              · exact Bool.noConfusion h
              · exact Bool.noConfusion h
            · constructor
              · intro _; exact ⟨hm, rfl, rfl⟩
              · rintro ⟨hne, -, -⟩
                unfold canSend
                simp only [Bool.not_false, Bool.and_true, Bool.and_self]
                simpa using hlen.mp hne

/-- Witness for C9 at concrete inputs. -/
theorem chatInput_handleSubmit_witness :
    chatInputHandleSubmit " hi " false false = (some "hi", "") ∧
    chatInputHandleSubmit "hi" true false = (none, "hi") := by
  constructor
  · have e : jsTrim " hi " = "hi" := by decide
    have h := (chatInput_handleSubmit_correct " hi " false false).1.mpr
      ⟨by decide, rfl, rfl⟩
    rw [e] at h
    exact h
  · exact (chatInput_handleSubmit_correct "hi" true false).2.1 (Or.inr (Or.inl rfl))

/-! ## Frontend data model (`frontend/src/types`, part_003)

Timestamps (`Date` values) are modelled as natural numbers; `number`
values are modelled as `Int` (for `result`) and `Rat` (for `confidence`). -/

/-- `UserPreferences` from the frontend types. -/
structure UserPreferences where
  theme : Option String
  notifications : Option Bool
  energyUnits : Option String
deriving DecidableEq, Repr

/-- `User` from the frontend types. -/
structure User where
  user_id : String
  name : String
  email : String
  interests : Option (List String)
  registered_at : Option String
  preferences : Option UserPreferences
deriving DecidableEq, Repr

/-- `MathResponse` from the frontend types.  The interface declares
`result : number` required, but `handleSendMessage` guards
`mathData.result !== undefined`, so `result` is modelled as optional;
`units` is read by `handleSendMessage` although the interface omits it. -/
structure MathResponse where
  result : Option Int
  operation : String
  explanation : String
  renewable_context : String
  confidence : Rat
  environmental_impact : Option String
  units : Option String
deriving DecidableEq, Repr

/-- The `sender` field of `ChatMessage`. -/
inductive Sender where
  | user : Sender
  | assistant : Sender
deriving DecidableEq, Repr

/-- `ChatMessage` from the frontend types. -/
structure ChatMessage where
  id : String
  content : String
  sender : Sender
  timestamp : Nat
  mathResponse : Option MathResponse
deriving DecidableEq, Repr

/-- `Conversation` from the frontend types. -/
structure Conversation where
  id : String
  userId : String
  messages : List ChatMessage
  createdAt : Nat
  updatedAt : Nat
deriving DecidableEq, Repr

/-- `ApiResponse<T>` from the frontend types. -/
structure ApiResponse (α : Type) where
  success : Bool
  data : Option α
  error : Option String
  message : Option String
deriving DecidableEq, Repr

/-- The `data` payload of the chat endpoint as typed by
`apiService.sendMessage`: `{ response: string; math_response?: MathResponse }`. -/
structure ChatResponseData where
  response : String
  math_response : Option MathResponse
deriving DecidableEq, Repr

/-- `AppState` from the frontend types. -/
structure AppState where
  user : Option User
  currentConversation : Option Conversation
  conversations : List Conversation
  isLoading : Bool
  error : Option String
deriving DecidableEq, Repr

/-! ## appStore.ts

Zustand's `set` merges the returned partial state into the old state;
this is modelled by building the new `AppState` from the old one with the
returned fields replaced. -/

/-- `addMessage` from `appStore.ts`.  `now` stands for the `new Date()`
written into `updatedAt`. -/
def addMessage (message : ChatMessage) (now : Nat) (s : AppState) : AppState :=
  match s.currentConversation with
  | none => s
  | some conv =>
      let updatedConversation : Conversation :=
        { conv with messages := conv.messages ++ [message], updatedAt := now }
      { s with
        currentConversation := some updatedConversation,
        conversations := s.conversations.map
          (fun c => if c.id = updatedConversation.id then updatedConversation else c) }

/-- `addConversation` from `appStore.ts`: prepends the conversation and
makes it current. -/
def addConversation (conversation : Conversation) (s : AppState) : AppState :=
  { s with
    conversations := conversation :: s.conversations,
    currentConversation := some conversation }

/-- `setLoading` from `appStore.ts`. -/
def setLoading (b : Bool) (s : AppState) : AppState :=
  { s with isLoading := b }

/-- `setError` from `appStore.ts`. -/
def setError (e : Option String) (s : AppState) : AppState :=
  { s with error := e }

/-- `clearError` from `appStore.ts`. -/
def clearError (s : AppState) : AppState :=
  { s with error := none }

/-- Claim C8: with no current conversation `addMessage` leaves the state
unchanged; with a current conversation it appends the message to that
conversation's list (preserving all prior messages in order), replaces
the same-id entry of the conversations list with the updated
conversation, and leaves `user`, `isLoading`, `error` and every
other-id conversation unchanged. -/
theorem addMessage_correct (message : ChatMessage) (now : Nat) (s : AppState) :
    (s.currentConversation = none → addMessage message now s = s) ∧
    (∀ conv, s.currentConversation = some conv →
      ∃ updated : Conversation,
        (addMessage message now s).currentConversation = some updated ∧
        updated.messages = conv.messages ++ [message] ∧
        updated.id = conv.id ∧
        updated.userId = conv.userId ∧
        updated.createdAt = conv.createdAt ∧
        updated.updatedAt = now ∧
        (addMessage message now s).conversations =
          s.conversations.map (fun c => if c.id = conv.id then updated else c) ∧
        (addMessage message now s).user = s.user ∧
        (addMessage message now s).isLoading = s.isLoading ∧
        (addMessage message now s).error = s.error ∧
        (∀ c ∈ s.conversations, c.id ≠ conv.id → c ∈ (addMessage message now s).conversations)) := by
  constructor
  · intro h
    unfold addMessage
    rw [h]
  · intro conv h
    refine ⟨{ conv with messages := conv.messages ++ [message], updatedAt := now },
      ?_, rfl, rfl, rfl, rfl, rfl, ?_, ?_, ?_, ?_, ?_⟩

    · unfold addMessage; rw [h]
    · unfold addMessage; rw [h]
    · unfold addMessage; rw [h]
    · unfold addMessage; rw [h]
    · unfold addMessage; rw [h]
    · intro c hc hne
      unfold addMessage
      rw [h]
      simp only [List.mem_map]
      exact ⟨c, hc, by rw [if_neg hne]⟩

/-- A concrete message used by witnesses. -/
def sampleMessage : ChatMessage :=
  { id := "m1", content := "hi", sender := Sender.user, timestamp := 5, mathResponse := none }

/-- A concrete conversation used by witnesses. -/
def sampleConversation : Conversation :=
  { id := "c1", userId := "u1", messages := [], createdAt := 1, updatedAt := 1 }

/-- A concrete store state with `sampleConversation` current. -/
def sampleState : AppState :=
  { user := none, currentConversation := some sampleConversation,
    conversations := [sampleConversation], isLoading := false, error := none }

/-- Witness for C8 at a concrete input. -/
theorem addMessage_correct_witness :
    ∃ updated : Conversation,
      (addMessage sampleMessage 7 sampleState).currentConversation = some updated ∧
      updated.messages = sampleConversation.messages ++ [sampleMessage] := by
  obtain ⟨u, h1, h2, -⟩ :=
    (addMessage_correct sampleMessage 7 sampleState).2 sampleConversation rfl
  exact ⟨u, h1, h2⟩

/-! ## services/api.ts -/

/-- `apiService.sendMessage` from `api.ts`: on HTTP success it returns the
server body (an `ApiResponse`) unchanged; on failure it throws
a thrown error whose message is `error.response?.data?.message`, defaulted to the text `Failed to send message`.
The argument is the transport outcome; a thrown error is `Except.error`
carrying the optional `error.response?.data?.message`. -/
def apiSendMessage (serverResult : Except (Option String) (ApiResponse ChatResponseData)) :
    Except String (ApiResponse ChatResponseData) :=
  match serverResult with
  | Except.ok body => Except.ok body
  | Except.error m =>
      Except.error (match m with
        | some msg => if msg = "" then "Failed to send message" else msg
        | none => "Failed to send message")

/-! ## ChatInterface `handleSendMessage` (part_001, lines 309-428) -/

/-- The canned fallback text of `handleSendMessage` when neither the main
response nor any math-tool field yields content. -/
def fallbackResponseText : String :=
  "I received your message but couldn\x27t generate a proper response. Please try asking about renewable energy topics or math calculations."

/-- The canned apology text appended on a caught error. -/
def apologyText (m : String) : String :=
  "I apologize, but I encountered an error: " ++ m ++ ". Please try again."

/-- `responseData.math_response?.f`: a string field of the optional math
response; `none` and a missing field are both JavaScript-falsy and are
modelled as the empty string. -/
def mathField (d : ChatResponseData) (f : MathResponse → String) : String :=
  match d.math_response with
  | some mr => f mr
  | none => ""

/-- The content-selection chain of `handleSendMessage` (part_001, lines
364-384): main response if truthy, else `renewable_context` when truthy
and not `"N/A"`, else `explanation` when truthy and not `"N/A"`, else the
canned fallback text. -/
def chooseBaseContent (d : ChatResponseData) : String :=
  if d.response != "" then d.response
  else if mathField d (fun mr => mr.renewable_context) != "" &&
          mathField d (fun mr => mr.renewable_context) != "N/A" then
    mathField d (fun mr => mr.renewable_context)
  else if mathField d (fun mr => mr.explanation) != "" &&
          mathField d (fun mr => mr.explanation) != "N/A" then
    mathField d (fun mr => mr.explanation)
  else fallbackResponseText

/-- The calculation details appended to the content (part_001, lines
386-393). -/
def calcSuffix (d : ChatResponseData) : String :=
  match d.math_response with
  | none => ""
  | some mr =>
      if mr.operation != "" && mr.operation != "N/A" &&
         mr.operation != "information" && mr.result.isSome then
        "\n\nCalculation: " ++ mr.operation ++ " = " ++
        (match mr.result with | some r => toString r | none => "") ++
        (match mr.units with
          | some u => if u != "" then " " ++ u else ""
          | none => "")
      else ""

/-- The full assistant content displayed by `handleSendMessage`. -/
def chatContent (d : ChatResponseData) : String :=
  chooseBaseContent d ++ calcSuffix d

/-- The `catch` block of `handleSendMessage`: sets the store error to
`error.message` (defaulted to `Failed to send message` when falsy) and appends an assistant
message with the apology text built from the raw `error.message`. -/
def catchPath (m : String) (errMsgId : String) (now : Nat) (s : AppState) : AppState :=
  let s1 := setError (some (if m = "" then "Failed to send message" else m)) s
  addMessage
    { id := errMsgId, content := apologyText m, sender := Sender.assistant,
      timestamp := now, mathResponse := none } now s1

/-- `handleSendMessage` from the `ChatInterface` component (part_001).
`newConvId`, the message ids and `now` stand for the generated
`conv_...`/`msg_...` identifiers and `new Date()`/`Date.now()`; the
`apiService.sendMessage` outcome is passed as `apiResult` (`Except.error`
models the thrown error).  The new conversation's `userId` is
`"anonymous"` because the source reads `user?.id`, a field absent from
the `User` type, and falls back. -/
def handleSendMessage (user : Option User) (messageContent : String)
    (newConvId userMsgId asstMsgId errMsgId : String) (now : Nat)
    (apiResult : Except String (ApiResponse ChatResponseData))
    (s : AppState) : AppState :=
  if user = none || jsTrim messageContent = "" then s
  else
    let s1 := clearError (setLoading true s)
    let s2 :=
      match s1.currentConversation with
      | some _ => s1
      | none =>
          addConversation
            { id := newConvId, userId := "anonymous", messages := [],
              createdAt := now, updatedAt := now } s1
    let s3 := addMessage
      { id := userMsgId, content := messageContent, sender := Sender.user,
        timestamp := now, mathResponse := none } now s2
    match apiResult with
    | Except.error m => setLoading false (catchPath m errMsgId now s3)
    | Except.ok resp =>
        match resp.success, resp.data with
        | true, some d =>
            setLoading false (addMessage
              { id := asstMsgId, content := chatContent d, sender := Sender.assistant,
                timestamp := now, mathResponse := d.math_response } now s3)
        | _, _ =>
            let raised : String :=
              match resp.error with
              | some e => if e = "" then "Failed to get response" else e
              | none => "Failed to get response"
            setLoading false (catchPath raised errMsgId now s3)

/-- A concrete user used by witnesses and counterexamples. -/
def sampleUser : User :=
  { user_id := "u1", name := "Al", email := "a@b.c", interests := none,
    registered_at := none, preferences := none }

/-- Claim C4: the displayed assistant content is selected by the fixed
priority chain — main response when non-empty, else truthy
`renewable_context` not equal to `"N/A"`, else truthy `explanation` not
equal to `"N/A"`, else the fixed canned apology text — and the full
displayed content is that choice plus the calculation suffix. -/
theorem chooseBaseContent_priority_chain (d : ChatResponseData) :
    (d.response ≠ "" → chooseBaseContent d = d.response) ∧
    (∀ mr, d.response = "" → d.math_response = some mr →
      mr.renewable_context ≠ "" → mr.renewable_context ≠ "N/A" →
      chooseBaseContent d = mr.renewable_context) ∧
    (∀ mr, d.response = "" → d.math_response = some mr →
      (mr.renewable_context = "" ∨ mr.renewable_context = "N/A") →
      mr.explanation ≠ "" → mr.explanation ≠ "N/A" →
      chooseBaseContent d = mr.explanation) ∧
    (d.response = "" → d.math_response = none →
      chooseBaseContent d = fallbackResponseText) ∧
    (∀ mr, d.response = "" → d.math_response = some mr →
      (mr.renewable_context = "" ∨ mr.renewable_context = "N/A") →
      (mr.explanation = "" ∨ mr.explanation = "N/A") →
      chooseBaseContent d = fallbackResponseText) ∧
    chatContent d = chooseBaseContent d ++ calcSuffix d := by
  refine ⟨?_, ?_, ?_, ?_, ?_, rfl⟩
  · intro h
    unfold chooseBaseContent
    rw [if_pos (by simpa using h)]
  · intro mr h hm hc1 hc2
    simp [chooseBaseContent, mathField, h, hm, hc1, hc2]
  · intro mr h hm hc he1 he2
    rcases hc with hc | hc <;>
      simp [chooseBaseContent, mathField, h, hm, hc, he1, he2]
  · intro h hm
    simp [chooseBaseContent, mathField, h, hm]
  · intro mr h hm hc he
    rcases hc with hc | hc <;> rcases he with he | he <;>
      simp [chooseBaseContent, mathField, h, hm, hc, he]

/-- Witness for C4 at concrete inputs: a non-empty main response is shown
as-is, and an all-empty response yields the canned fallback. -/
theorem chooseBaseContent_priority_chain_witness :
    chooseBaseContent { response := "hello", math_response := none } = "hello" ∧
    chooseBaseContent { response := "", math_response := none } = fallbackResponseText := by
  constructor
  · exact (chooseBaseContent_priority_chain
      { response := "hello", math_response := none }).1 (by decide)
  · exact (chooseBaseContent_priority_chain
      { response := "", math_response := none }).2.2.2.1 rfl rfl

/-- Counterexample to claim C2 as stated: on a failing chat call the user
IS shown a substitute canned answer — `handleSendMessage` appends an
assistant-sender message with the canned apology text (there is no
`UpstreamUnavailable` error value anywhere in the code). -/
theorem chat_upstream_failure_counterexample :
    ((handleSendMessage (some sampleUser) "hi" "cN" "mU" "mA" "mE" 9
        (Except.error "Network Error") sampleState).currentConversation.map
        (fun c => c.messages.map (fun msg => (msg.content, msg.sender)))) =
      some [("hi", Sender.user),
            (apologyText "Network Error", Sender.assistant)] := by decide

/-- Claim C2 (amended): on a failing chat call `handleSendMessage` does
surface the failure visibly — it sets the store error to the failure
message (defaulted when empty) and clears the loading flag — but it also
appends a canned apology assistant message quoting the error to the
conversation, rather than failing with an `UpstreamUnavailable` error. -/
theorem chat_failure_surfaces_error
    (user : User) (mc newConvId userMsgId asstMsgId errMsgId : String) (now : Nat)
    (m : String) (s : AppState) (conv : Conversation)
    (hmc : jsTrim mc ≠ "") (hconv : s.currentConversation = some conv) :
    ∃ s' : AppState,
      handleSendMessage (some user) mc newConvId userMsgId asstMsgId errMsgId now
        (Except.error m) s = s' ∧
      s'.error = some (if m = "" then "Failed to send message" else m) ∧
      s'.isLoading = false ∧
      (∃ conv', s'.currentConversation = some conv' ∧
        conv'.messages = conv.messages ++
          [{ id := userMsgId, content := mc, sender := Sender.user,
             timestamp := now, mathResponse := none },
           { id := errMsgId, content := apologyText m, sender := Sender.assistant,
             timestamp := now, mathResponse := none }]) := by
  refine ⟨_, rfl, ?_⟩
  unfold handleSendMessage
  rw [if_neg (by simp [hmc])]
  simp only [clearError, setLoading, catchPath, setError, addMessage, hconv]
  simp [List.append_assoc]

/-- Witness for the amended C2 at a concrete input. -/
theorem chat_failure_surfaces_error_witness :
    ∃ s' : AppState,
      handleSendMessage (some sampleUser) "hi" "cN" "mU" "mA" "mE" 9
        (Except.error "boom") sampleState = s' ∧
      s'.error = some (if "boom" = "" then "Failed to send message" else "boom") ∧
      s'.isLoading = false ∧
      (∃ conv', s'.currentConversation = some conv' ∧
        conv'.messages = sampleConversation.messages ++
          [{ id := "mU", content := "hi", sender := Sender.user,
             timestamp := 9, mathResponse := none },
           { id := "mE", content := apologyText "boom", sender := Sender.assistant,
             timestamp := 9, mathResponse := none }]) :=
  chat_failure_surfaces_error sampleUser "hi" "cN" "mU" "mA" "mE" 9 "boom"
    sampleState sampleConversation (by decide) rfl

/-! ## Interface shape of the chat call (claim C3)

The field names of the source's request/response types, and — for the
refinement comparison — the field names the spec's words assert. -/

/-- Field names of `ChatRequest` in `frontend/src/types` (part_003). -/
def chatRequestFields : List String := ["message", "userId", "conversationId"]

/-- Field names of `ApiResponse` in `frontend/src/types` (part_003). -/
def apiResponseFields : List String := ["success", "data", "error", "message"]

/-- Field names of the chat endpoint's `data` payload as typed by
`apiService.sendMessage` in `api.ts`. -/
def chatResponseDataFields : List String := ["response", "math_response"]

/-- Field names of `MathResponse` in `frontend/src/types` (part_003). -/
def mathResponseFields : List String :=
  ["result", "operation", "explanation", "renewable_context", "confidence",
   "environmental_impact"]

/-- Modelled from the spec: the chat-request fields asserted by §6
("Chat call"), for comparison against the source's `ChatRequest`. -/
def specChatRequestFields : List String :=
  ["message", "project_scope", "use_rag", "conversation_id", "history"]

/-- Modelled from the spec: the chat-response `data` fields asserted by
§6, for comparison against the source's payload type. -/
def specChatDataFields : List String := ["response", "citations", "confidence"]

/-- Counterexample to claim C3 as stated: the source's chat request does
not carry `project_scope`, `use_rag` or `history`, and its response data
carries neither `citations` nor a top-level `confidence`. -/
theorem chat_interface_shape_counterexample :
    ¬ (specChatRequestFields.all (fun f => chatRequestFields.contains f) = true ∧
       specChatDataFields.all (fun f => chatResponseDataFields.contains f) = true) := by
  decide

/-- Claim C3 (amended): every chat call takes `{message, userId,
conversationId?}` and returns `{success, data?, error?, message?}` whose
`data` is `{response, math_response?}`; a confidence value exists only
inside `math_response`, there are no citations, and `sendMessage` returns
the server body unchanged on success while mapping transport failures to
a thrown message. -/
theorem chat_interface_actual_shape :
    ("message" ∈ chatRequestFields ∧ "userId" ∈ chatRequestFields ∧
      "conversationId" ∈ chatRequestFields ∧
      "project_scope" ∉ chatRequestFields ∧ "use_rag" ∉ chatRequestFields ∧
      "history" ∉ chatRequestFields) ∧
    ("success" ∈ apiResponseFields ∧ "data" ∈ apiResponseFields ∧
      "error" ∈ apiResponseFields) ∧
    ("response" ∈ chatResponseDataFields ∧ "math_response" ∈ chatResponseDataFields ∧
      "citations" ∉ chatResponseDataFields ∧ "confidence" ∉ chatResponseDataFields) ∧
    ("confidence" ∈ mathResponseFields) ∧
    (∀ body, apiSendMessage (Except.ok body) = Except.ok body) ∧
    (apiSendMessage (Except.error none) = Except.error "Failed to send message") := by
  refine ⟨by decide, by decide, by decide, by decide, fun body => rfl, rfl⟩

/-! ## database_schema.sql: row-level security (claim C1)

`projects`, `documents`, `document_chunks` and `conversation_contexts`
each carry a nullable `user_id` column and an RLS policy
`FOR ALL USING (auth.uid() = user_id)`.  A row of any of these tables is
modelled by `OwnedRow`; reads see only rows passing the policy, and
updates, deletes and inserts are gated by the same predicate (with no
`WITH CHECK`, the `USING` clause also gates writes). -/

/-- A row of one of the four RLS-protected tables: its primary key and
its (nullable) `user_id`. -/
structure OwnedRow where
  id : Nat
  user_id : Option Nat
deriving DecidableEq, Repr

/-- The policy predicate `auth.uid() = user_id`: SQL equality against a
NULL `user_id` is not true, so a NULL-owned row is visible to nobody. -/
def rlsAllows (uid : Nat) (r : OwnedRow) : Bool :=
  r.user_id == some uid

/-- The rows a `SELECT` issued by user `uid` can observe. -/
def visibleRows (uid : Nat) (rows : List OwnedRow) : List OwnedRow :=
  rows.filter (rlsAllows uid)

/-- The effect of an `UPDATE ... WHERE p` issued by `uid` on one row:
only rows passing the policy and the predicate are modified. -/
def rlsUpdateRow (uid : Nat) (p : OwnedRow → Bool) (f : OwnedRow → OwnedRow)
    (r : OwnedRow) : OwnedRow :=
  if rlsAllows uid r && p r then f r else r

/-- The effect of a `DELETE ... WHERE p` issued by `uid`: only rows
passing the policy and the predicate are removed. -/
def rlsDeleteWhere (uid : Nat) (p : OwnedRow → Bool) (rows : List OwnedRow) :
    List OwnedRow :=
  rows.filter (fun r => !(rlsAllows uid r && p r))

/-- The effect of an `INSERT` issued by `uid`: the policy (used as the
check clause) rejects a row not owned by the requester. -/
def rlsInsert (uid : Nat) (r : OwnedRow) (rows : List OwnedRow) :
    Option (List OwnedRow) :=
  if rlsAllows uid r then some (rows ++ [r]) else none

/-- Claim C1: under the RLS policies, a query issued by a user touches a
row only when the row field `user_id` equals that user; hence for distinct
users the observable row sets are disjoint, updates and deletes leave
rows of other owners untouched, and inserts succeed only for self-owned
rows. -/
theorem rls_row_ownership_isolation (u v uid : Nat) (rows : List OwnedRow)
    (p : OwnedRow → Bool) (f : OwnedRow → OwnedRow) :
    (∀ r ∈ visibleRows uid rows, r.user_id = some uid) ∧
    (u ≠ v → ∀ r, r ∈ visibleRows u rows → r ∉ visibleRows v rows) ∧
    (∀ r, r.user_id ≠ some uid → rlsUpdateRow uid p f r = r) ∧
    (∀ r, r ∈ rows → r ∉ rlsDeleteWhere uid p rows → r.user_id = some uid) ∧
    (∀ r rows2, rlsInsert uid r rows = some rows2 → r.user_id = some uid) := by
  refine ⟨?_, ?_, ?_, ?_, ?_⟩
  · intro r hr
    have h := (List.mem_filter.mp hr).2
    simpa [rlsAllows] using h
  · intro huv r h1 h2
    have e1 : r.user_id = some u := by
      simpa [rlsAllows] using (List.mem_filter.mp h1).2
    have e2 : r.user_id = some v := by
      simpa [rlsAllows] using (List.mem_filter.mp h2).2
    exact huv (by injection e1 ▸ e2)
  · intro r h
    unfold rlsUpdateRow
    rw [if_neg (by simp [rlsAllows, h])]
  · intro r hr hnot
    by_contra hne
    exact hnot (List.mem_filter.mpr ⟨hr, by simp [rlsAllows, hne]⟩)
  · intro r rows2 h
    unfold rlsInsert at h
    split_ifs at h with ha
    simpa [rlsAllows] using ha

/-- Witness for C1 at a concrete input: a row owned by user 10 is not
visible to user 20. -/
theorem rls_row_ownership_isolation_witness :
    ({ id := 1, user_id := some 10 } : OwnedRow) ∉
      visibleRows 20 [{ id := 1, user_id := some 10 }] :=
  (rls_row_ownership_isolation 10 20 0 [{ id := 1, user_id := some 10 }]
    (fun _ => true) id).2.1 (by decide)
    { id := 1, user_id := some 10 } (by decide)

/-! ## database_schema.sql: tables and cascade delete (claims C5, C6)

The `projects`, `documents` and `document_chunks` tables with their
foreign keys; every `REFERENCES ... ON DELETE CASCADE` column is
nullable, so references are `Option Nat`.  Deleting a row removes, in
the same statement, every row whose foreign key references it,
transitively. -/

/-- A `projects` row (the columns the claims need). -/
structure ProjectRow where
  id : Nat
  user_id : Option Nat
deriving DecidableEq, Repr

/-- A `documents` row (the columns the claims need). -/
structure DocumentRow where
  id : Nat
  user_id : Option Nat
  project_id : Option Nat
deriving DecidableEq, Repr

/-- A `document_chunks` row (the columns the claims need); the
`embedding VECTOR(1536)` column is nullable. -/
structure ChunkRow where
  id : Nat
  user_id : Option Nat
  document_id : Option Nat
  project_id : Option Nat
  chunk_index : Nat
  embedding : Option (List Rat)
deriving DecidableEq, Repr

/-- The relational state: `users`, `projects`, `documents`,
`document_chunks`. -/
structure Db where
  users : List Nat
  projects : List ProjectRow
  documents : List DocumentRow
  chunks : List ChunkRow
deriving DecidableEq, Repr

/-- `DELETE FROM documents WHERE id = did`: the cascade removes the
chunks referencing the document. -/
def deleteDocument (db : Db) (did : Nat) : Db :=
  { db with
    documents := db.documents.filter (fun d => d.id != did),
    chunks := db.chunks.filter (fun c => !(c.document_id == some did)) }

/-- `DELETE FROM projects WHERE id = pid`: the cascade removes the
documents of the project, the chunks referencing the project, and the chunks
referencing a removed document. -/
def deleteProject (db : Db) (pid : Nat) : Db :=
  { db with
    projects := db.projects.filter (fun p => p.id != pid),
    documents := db.documents.filter (fun d => !(d.project_id == some pid)),
    chunks := db.chunks.filter (fun c =>
      !(c.project_id == some pid) &&
      !(db.documents.any (fun d => c.document_id == some d.id &&
        d.project_id == some pid))) }

/-- Whether deleting user `uid` removes document `d`: directly through
`documents.user_id`, or through the cascade from a removed project. -/
def docDeadForUser (db : Db) (uid : Nat) (d : DocumentRow) : Bool :=
  d.user_id == some uid ||
  db.projects.any (fun p => d.project_id == some p.id && p.user_id == some uid)

/-- `DELETE FROM users WHERE id = uid`: the cascade removes that user owns:
projects, documents and chunks, and transitively the documents and
chunks referencing a removed project or document. -/
def deleteUser (db : Db) (uid : Nat) : Db :=
  { users := db.users.filter (fun u => u != uid),
    projects := db.projects.filter (fun p => !(p.user_id == some uid)),
    documents := db.documents.filter (fun d => !docDeadForUser db uid d),
    chunks := db.chunks.filter (fun c =>
      !(c.user_id == some uid) &&
      !(db.projects.any (fun p => c.project_id == some p.id &&
        p.user_id == some uid)) &&
      !(db.documents.any (fun d => c.document_id == some d.id &&
        docDeadForUser db uid d))) }

/-- Referential integrity of `document_chunks`: every non-null
`document_id` and `project_id` names an existing row. -/
def chunkRefsOk (db : Db) : Bool :=
  db.chunks.all (fun c =>
    (match c.document_id with
      | some d0 => db.documents.any (fun d => d.id == d0)
      | none => true) &&
    (match c.project_id with
      | some p0 => db.projects.any (fun p => p.id == p0)
      | none => true))

theorem any_id_filter {β : Type} (l : List β) (idf : β → Nat) (keep : β → Bool)
    (i : Nat) (hex : (l.any fun x => idf x == i) = true)
    (hkeepwit : ∀ x ∈ l, idf x = i → keep x = true) :
    ((l.filter keep).any fun x => idf x == i) = true := by
  obtain ⟨x, hx, hxi⟩ := List.any_eq_true.mp hex
  simp only [beq_iff_eq] at hxi
  exact List.any_eq_true.mpr
    ⟨x, List.mem_filter.mpr ⟨hx, hkeepwit x hx hxi⟩, by simp [hxi]⟩

/-- Claim C5: deletion cascades along ownership — deleting a user
removes their projects, deleting a project removes its documents and
chunks, deleting a document removes its chunks — and every delete step
preserves referential integrity of `document_chunks`: afterwards no
chunk references a deleted document or project. -/
theorem cascade_delete_correct (db : Db) (uid pid did : Nat) :
    (∀ p ∈ (deleteUser db uid).projects, p.user_id ≠ some uid) ∧
    (∀ d ∈ (deleteProject db pid).documents, d.project_id ≠ some pid) ∧
    (∀ c ∈ (deleteProject db pid).chunks, c.project_id ≠ some pid) ∧
    (∀ c ∈ (deleteDocument db did).chunks, c.document_id ≠ some did) ∧
    (chunkRefsOk db = true →
      chunkRefsOk (deleteDocument db did) = true ∧
      chunkRefsOk (deleteProject db pid) = true ∧
      chunkRefsOk (deleteUser db uid) = true) := by
  refine ⟨?_, ?_, ?_, ?_, ?_⟩
  · intro p hp
    have h := (List.mem_filter.mp hp).2
    simpa using h
  · intro d hd
    have h := (List.mem_filter.mp hd).2
    simpa using h
  · intro c hc
    have h := (List.mem_filter.mp hc).2
    simp only [Bool.and_eq_true, Bool.not_eq_true'] at h
    simpa using h.1
  · intro c hc
    have h := (List.mem_filter.mp hc).2
    simpa using h
  · intro hok
    rw [chunkRefsOk, List.all_eq_true] at hok
    refine ⟨?_, ?_, ?_⟩
    · rw [chunkRefsOk, List.all_eq_true]
      intro c hc
      obtain ⟨hmem, hkeep⟩ := List.mem_filter.mp hc
      have hc0 := hok c hmem
      simp only [Bool.and_eq_true] at hc0
      obtain ⟨hcd, hcp⟩ := hc0
      simp only [Bool.and_eq_true]
      refine ⟨?_, hcp⟩
      rcases Option.eq_none_or_eq_some c.document_id with hdoc | ⟨d0, hdoc⟩
      · rw [hdoc]
      · rw [hdoc] at hcd hkeep ⊢
        refine any_id_filter db.documents (fun d => d.id) _ d0 hcd ?_
        intro d hd hdid
        have hdid2 : d.id = d0 := hdid
        simp only [bne_iff_ne, ne_eq]
        intro heq
        rw [hdid2.symm.trans heq] at hkeep
        simp at hkeep
    · rw [chunkRefsOk, List.all_eq_true]
      intro c hc
      obtain ⟨hmem, hkeep⟩ := List.mem_filter.mp hc
      have hc0 := hok c hmem
      simp only [Bool.and_eq_true] at hc0
      obtain ⟨hcd, hcp⟩ := hc0
      simp only [Bool.and_eq_true, Bool.not_eq_true'] at hkeep
      obtain ⟨hk1, hk2⟩ := hkeep
      rw [List.any_eq_false] at hk2
      simp only [Bool.and_eq_true]
      constructor
      · rcases Option.eq_none_or_eq_some c.document_id with hdoc | ⟨d0, hdoc⟩
        · rw [hdoc]
        · rw [hdoc] at hcd hk2 ⊢
          refine any_id_filter db.documents (fun d => d.id) _ d0 hcd ?_
          intro d hd hdid
          have hdid2 : d.id = d0 := hdid
          have h2 := hk2 d hd
          simp only [Bool.and_eq_true, not_and, beq_iff_eq] at h2
          simp only [Bool.not_eq_true']
          cases hpp : (d.project_id == some pid)
          · rfl
          · exfalso
            exact h2 (congrArg some hdid2.symm) (by simpa using hpp)
      · rcases Option.eq_none_or_eq_some c.project_id with hproj | ⟨p0, hproj⟩
        · rw [hproj]
        · rw [hproj] at hcp hk1 ⊢
          refine any_id_filter db.projects (fun p => p.id) _ p0 hcp ?_
          intro p hp hpid
          have hpid2 : p.id = p0 := hpid
          simp only [bne_iff_ne, ne_eq]
          intro heq
          rw [hpid2.symm.trans heq] at hk1
          simp at hk1
    · rw [chunkRefsOk, List.all_eq_true]
      intro c hc
      obtain ⟨hmem, hkeep⟩ := List.mem_filter.mp hc
      have hc0 := hok c hmem
      simp only [Bool.and_eq_true] at hc0
      obtain ⟨hcd, hcp⟩ := hc0
      simp only [Bool.and_eq_true, Bool.not_eq_true'] at hkeep
      obtain ⟨⟨hk1, hk2⟩, hk3⟩ := hkeep
      rw [List.any_eq_false] at hk2 hk3
      simp only [Bool.and_eq_true]
      constructor
      · rcases Option.eq_none_or_eq_some c.document_id with hdoc | ⟨d0, hdoc⟩
        · rw [hdoc]
        · rw [hdoc] at hcd hk3 ⊢
          refine any_id_filter db.documents (fun d => d.id) _ d0 hcd ?_
          intro d hd hdid
          have hdid2 : d.id = d0 := hdid
          have h3 := hk3 d hd
          simp only [Bool.and_eq_true, not_and, beq_iff_eq] at h3
          simp only [Bool.not_eq_true']
          cases hdd : docDeadForUser db uid d
          · rfl
          · exfalso
            exact h3 (congrArg some hdid2.symm) (by simpa using hdd)
      · rcases Option.eq_none_or_eq_some c.project_id with hproj | ⟨p0, hproj⟩
        · rw [hproj]
        · rw [hproj] at hcp hk2 ⊢
          refine any_id_filter db.projects (fun p => p.id) _ p0 hcp ?_
          intro p hp hpid
          have hpid2 : p.id = p0 := hpid
          have h2 := hk2 p hp
          simp only [Bool.and_eq_true, not_and, beq_iff_eq] at h2
          simp only [Bool.not_eq_true']
          cases huu : (p.user_id == some uid)
          · rfl
          · exfalso
            exact h2 (congrArg some hpid2.symm) (by simpa using huu)

/-- A concrete project row used by witnesses. -/
def sampleProjectRow : ProjectRow := { id := 10, user_id := some 1 }

/-- A concrete document row used by witnesses. -/
def sampleDocumentRow : DocumentRow :=
  { id := 20, user_id := some 1, project_id := some 10 }

/-- A concrete chunk row used by witnesses. -/
def sampleChunkRow : ChunkRow :=
  { id := 30, user_id := some 1, document_id := some 20,
    project_id := some 10, chunk_index := 0, embedding := none }

/-- A concrete database state used by witnesses. -/
def sampleDb : Db :=
  { users := [1], projects := [sampleProjectRow],
    documents := [sampleDocumentRow], chunks := [sampleChunkRow] }

/-- Witness for C5 at a concrete database. -/
theorem cascade_delete_correct_witness :
    chunkRefsOk (deleteDocument sampleDb 20) = true ∧
    chunkRefsOk (deleteProject sampleDb 10) = true ∧
    chunkRefsOk (deleteUser sampleDb 1) = true :=
  (cascade_delete_correct sampleDb 1 10 20).2.2.2.2 (by decide)

/-! ## Embedding dimensionality (claim C6)

`database_schema.sql` declares `embedding VECTOR(1536)`; the pgvector
column type rejects any non-null vector of another dimension, on write
and in query operands alike.  Part_000 declares
`EMBEDDING_DIMENSION=1536` alongside the configured embedding model
`text-embedding-3-small`. -/

/-- `EMBEDDING_DIMENSION` from the environment template (part_000): the
declared output size of the configured embedding model. -/
def EMBEDDING_DIMENSION : Nat := 1536

/-- The dimension of the `VECTOR(1536)` column in `database_schema.sql`. -/
def schemaEmbeddingDim : Nat := 1536

/-- Storing a chunk row: the `VECTOR(1536)` column type rejects a
non-null embedding whose dimension is not 1536. -/
def insertChunk (db : Db) (c : ChunkRow) : Option Db :=
  match c.embedding with
  | some e =>
      if e.length = schemaEmbeddingDim then
        some { db with chunks := db.chunks ++ [c] }
      else none
  | none => some { db with chunks := db.chunks ++ [c] }

/-- Querying by a vector: pgvector rejects a query operand of mismatched
dimension. -/
def queryChunksByEmbedding (db : Db) (q : List Rat) : Option (List ChunkRow) :=
  if q.length = schemaEmbeddingDim then
    some (db.chunks.filter (fun c => c.embedding.isSome))
  else none

/-- Every stored non-null embedding has the schema dimension. -/
def chunkDimsOk (db : Db) : Bool :=
  db.chunks.all (fun c =>
    match c.embedding with
    | some e => e.length == schemaEmbeddingDim
    | none => true)

/-- Claim C6: every embedding stored in a `document_chunks` row has the
fixed dimension 1536, which equals the configured
`EMBEDDING_DIMENSION`; a chunk with a different embedding
dimensionality cannot be stored, and a query vector of a different
dimensionality is rejected. -/
theorem embedding_dimension_fixed (db db2 : Db) (c : ChunkRow) (q : List Rat) :
    (EMBEDDING_DIMENSION = schemaEmbeddingDim) ∧
    (∀ e, c.embedding = some e → e.length ≠ schemaEmbeddingDim →
      insertChunk db c = none) ∧
    (chunkDimsOk db = true → insertChunk db c = some db2 →
      chunkDimsOk db2 = true) ∧
    (q.length ≠ schemaEmbeddingDim → queryChunksByEmbedding db q = none) := by
  refine ⟨rfl, ?_, ?_, ?_⟩
  · intro e he hlen
    unfold insertChunk
    simp only [he]
    rw [if_neg hlen]
  · intro hok hins
    unfold insertChunk at hins
    cases hemb : c.embedding with
    | none =>
        simp only [hemb] at hins
        obtain rfl := Option.some.inj hins
        simp only [chunkDimsOk, List.all_eq_true] at hok ⊢
        intro x hx
        rcases List.mem_append.mp hx with hx | hx
        · exact hok x hx
        · rw [List.mem_singleton.mp hx, hemb]
    | some e =>
        simp only [hemb] at hins
        split_ifs at hins with hl
        obtain rfl := Option.some.inj hins
        simp only [chunkDimsOk, List.all_eq_true] at hok ⊢
        intro x hx
        rcases List.mem_append.mp hx with hx | hx
        · exact hok x hx
        · rw [List.mem_singleton.mp hx, hemb]
          simpa using hl
  · intro h
    unfold queryChunksByEmbedding
    rw [if_neg h]

/-- The empty database, used by witnesses. -/
def emptyDb : Db := { users := [], projects := [], documents := [], chunks := [] }

/-- A chunk with a 1-dimensional embedding, used by witnesses. -/
def badChunk : ChunkRow :=
  { id := 1, user_id := none, document_id := none, project_id := none,
    chunk_index := 0, embedding := some [0] }

/-- Witness for C6 at concrete inputs: a wrong-dimension embedding is
rejected on store and on query. -/
theorem embedding_dimension_fixed_witness :
    insertChunk emptyDb badChunk = none ∧
    queryChunksByEmbedding emptyDb [1] = none := by
  constructor
  · exact (embedding_dimension_fixed emptyDb emptyDb badChunk []).2.1
      [0] rfl (by decide)
  · exact (embedding_dimension_fixed emptyDb emptyDb badChunk [1]).2.2.2
      (by decide)

/-! ## Retriever (claim C7)

The RAG retriever is not implemented anywhere in the repository (the
spec itself records that the engine "is never implemented"), so it is
modelled from the spec. -/

/-- Modelled from the spec: the error taxonomy entry `InvalidArgument`
of §4.3/§7 (the Retriever is missing from the repository). -/
inductive RetrieveError where
  | invalidArgument : RetrieveError
deriving DecidableEq, Repr

/-- Modelled from the spec: the Retriever contract of §4.3, which is not
implemented in the repository.  `retrieve(query, project_scope, k,
similarity_threshold)`: an empty `project_scope` returns an empty
sequence (fail closed); `k ≤ 0` fails with `InvalidArgument`; otherwise
the query is embedded, the vector store is consulted restricted to the
scope, results below the threshold are dropped, and the survivors are
ordered by descending score with ties broken by ascending chunk
sequence index.  The embedding provider and vector store are consumed
capabilities, passed as functions. -/
def retrieve (embedQuery : String → List Rat)
    (vectorStore : List Rat → List Nat → List (ChunkRow × Rat))
    (query : String) (project_scope : List Nat) (k : Int)
    (similarity_threshold : Rat) : Except RetrieveError (List (ChunkRow × Rat)) :=
  if project_scope.isEmpty then Except.ok []
  else if k ≤ 0 then Except.error RetrieveError.invalidArgument
  else
    let results := vectorStore (embedQuery query) project_scope
    let kept := results.filter (fun r => similarity_threshold ≤ r.2)
    Except.ok ((kept.mergeSort (fun a b =>
      if a.2 = b.2 then a.1.chunk_index ≤ b.1.chunk_index else b.2 ≤ a.2)).take k.toNat)

/-- Claim C7: for every query, every `k` and every threshold, `retrieve`
with an empty `project_scope` returns the empty sequence, whatever the
embedding provider and the vector store hold — it never falls back to a
full-corpus search. -/
theorem retrieve_empty_scope_fails_closed
    (embedQuery : String → List Rat)
    (vectorStore : List Rat → List Nat → List (ChunkRow × Rat))
    (query : String) (k : Int) (t : Rat) :
    retrieve embedQuery vectorStore query [] k t = Except.ok [] := rfl

end RenewableAgency
